import Mathlib

/-!
Verification of the command-suggestion and validation pipeline specified for
the AWS API MCP server, and of the static-site build plugin
`docusaurus/plugins/copy-well-known/index.js`.

The pipeline (corpus index, query embedder, nearest-neighbor ranker, command
validator) is present in the repository only as a prose specification; its
definitions below are therefore modelled from the spec.  The build plugin is
embedded from its JavaScript source.
-/

/-- Modelled from the spec: process-wide access mode flag (normal vs read-only).
The implementation of the pipeline is not in the repository sources. -/
inductive AccessMode where
  | normal
  | readOnly
deriving DecidableEq

/-- Modelled from the spec: a named parameter of a CLI operation, with whether
it is required. -/
structure ParamSpec where
  name : String
  required : Bool
deriving DecidableEq

/-- Modelled from the spec: structured representation of one CLI operation:
service, operation, its full set of named parameters, and its declared access
level (write vs non-write per the command-table metadata). -/
structure CommandSpec where
  service : String
  operation : String
  params : List ParamSpec
  isWrite : Bool
deriving DecidableEq

/-- Modelled from the spec: a fixed-length numeric vector produced by the
embedder. -/
def EmbeddingVector : Type := List Int
deriving instance DecidableEq for EmbeddingVector

/-- Modelled from the spec: the corpus index holds all
(CommandSpec, EmbeddingVector) pairs, built once, read-only thereafter. -/
def CorpusIndex : Type := List (CommandSpec × EmbeddingVector)
deriving instance DecidableEq for CorpusIndex

/-- Modelled from the spec: the parsed form of a candidate command string:
a service, an operation, and the named parameters appearing in the string. -/
structure ParsedCommand where
  service : String
  operation : String
  paramNames : List String
deriving DecidableEq

/-- Modelled from the spec: a validation verdict, one of
Allowed / DeniedReadOnly / DeniedDenylisted / DeniedMalformed, carrying a
human-readable reason string. -/
inductive ValidationVerdict where
  | Allowed (reason : String)
  | DeniedReadOnly (reason : String)
  | DeniedDenylisted (reason : String)
  | DeniedMalformed (reason : String)
deriving DecidableEq

/-- The four verdict kinds, without the reason payload. -/
inductive VKind where
  | Allowed
  | DeniedReadOnly
  | DeniedDenylisted
  | DeniedMalformed
deriving DecidableEq

/-- Kind of a verdict, forgetting the reason string. -/
def ValidationVerdict.kind : ValidationVerdict → VKind
  | .Allowed _ => .Allowed
  | .DeniedReadOnly _ => .DeniedReadOnly
  | .DeniedDenylisted _ => .DeniedDenylisted
  | .DeniedMalformed _ => .DeniedMalformed

/-- Splits a character list into whitespace-separated words; the accumulator
holds the characters of the current word in reverse. -/
def wordsAux : List Char → List Char → List String
  | [], acc => if acc = [] then [] else [String.mk acc.reverse]
  | c :: cs, acc =>
      if c = ' ' then
        if acc = [] then wordsAux cs [] else String.mk acc.reverse :: wordsAux cs []
      else wordsAux cs (c :: acc)

/-- Whitespace tokenization of a candidate command string. -/
def tokenize (s : String) : List String :=
  wordsAux s.toList []

/-- Names of the `--name`-shaped tokens among the argument tokens. -/
def paramNamesOf : List String → List String
  | [] => []
  | t :: ts =>
      match t.toList with
      | '-' :: '-' :: rest => String.mk rest :: paramNamesOf ts
      | _ => paramNamesOf ts

/-- Modelled from the spec: the Parse stage tokenizes the candidate string
into (service, operation, parameters); it fails when no service/operation
pair can be read off. -/
def parse (s : String) : Option ParsedCommand :=
  match tokenize s with
  | service :: operation :: rest => some ⟨service, operation, paramNamesOf rest⟩
  | _ => none

/-- Modelled from the spec: corpus lookup of the CommandSpec for a
(service, operation) pair. -/
def lookupSpec (corpus : CorpusIndex) (service operation : String) : Option CommandSpec :=
  (corpus.find? (fun e => e.1.service = service ∧ e.1.operation = operation)).map (·.1)

/-- Modelled from the spec: the SchemaCheck parameter test — every parameter
named in the candidate must be a parameter of the corpus CommandSpec. -/
def paramsOk (sp : CommandSpec) (p : ParsedCommand) : Bool :=
  p.paramNames.all (fun n => sp.params.any (fun q => q.name = n))

/-- Modelled from the spec: the static denylist of (service, operation)
pairs that spawn subprocesses or interactive sessions, as listed in the
README. -/
def staticDenylist : List (String × String) :=
  [("deploy", "install"), ("deploy", "uninstall"),
   ("emr", "ssh"), ("emr", "sock"), ("emr", "get"), ("emr", "put"),
   ("opsworks", "register")]

/-- Modelled from the spec: the Command Validator state machine
Parse -> SchemaCheck -> PolicyCheck -> Verdict.  Parse failure and schema
failure (unknown service/operation or unknown parameter) yield
DeniedMalformed; the denylist gate yields DeniedDenylisted regardless of
access mode; the read-only gate yields DeniedReadOnly for write operations
in read-only mode; otherwise the command is Allowed. -/
def validate (corpus : CorpusIndex) (denylist : List (String × String))
    (mode : AccessMode) (cand : String) : ValidationVerdict :=
  match parse cand with
  | none => .DeniedMalformed "cannot parse a service/operation pair"
  | some p =>
    match lookupSpec corpus p.service p.operation with
    | none => .DeniedMalformed "unknown service/operation"
    | some sp =>
      if paramsOk sp p = false then .DeniedMalformed "unknown parameter"
      else if (p.service, p.operation) ∈ denylist then
        .DeniedDenylisted "operation is denylisted"
      else if mode = .readOnly ∧ sp.isWrite then
        .DeniedReadOnly "write operation in read-only mode"
      else .Allowed "command matches the corpus and passes policy"

/-- Modelled from the spec: a candidate command string matches the corpus
when it parses and its (service, operation) pair resolves to a CommandSpec
all of whose candidate parameters are known. -/
def matchesCorpus (corpus : CorpusIndex) (s : String) : Bool :=
  match parse s with
  | none => false
  | some p =>
    match lookupSpec corpus p.service p.operation with
    | none => false
    | some sp => paramsOk sp p

/-- A one-entry corpus holding the `emr sock` command with no parameters. -/
def emrSockCorpus : CorpusIndex :=
  [(⟨"emr", "sock", [], true⟩, [0, 0, 0, 0])]

/-- A one-entry corpus holding the write-classified `deploy install`. -/
def deployCorpus : CorpusIndex :=
  [(⟨"deploy", "install", [], true⟩, [0, 0, 0, 0])]

/-- A one-entry corpus holding the read-only `ec2 describe-instances`. -/
def ec2ReadCorpus : CorpusIndex :=
  [(⟨"ec2", "describe-instances", [], false⟩, [1, 2, 3, 4])]

/-- A one-entry corpus holding the write-classified `ec2 terminate-instances`
with its `instance-ids` parameter. -/
def ec2WriteCorpus : CorpusIndex :=
  [(⟨"ec2", "terminate-instances", [⟨"instance-ids", true⟩], true⟩, [5, 6, 7, 8])]

/-- Under normal access mode the read-only gate never fires: no command is
rejected with DeniedReadOnly. -/
theorem validate_normal_no_readonly (corpus : CorpusIndex)
    (dl : List (String × String)) (s : String) :
    (validate corpus dl .normal s).kind ≠ .DeniedReadOnly := by
  unfold validate
  repeat' split
  all_goals simp_all [ValidationVerdict.kind]

/-- C1 counterexample: `emr sock --bogus x` has its (service, operation) pair
in the static denylist, yet under normal access mode validation returns
DeniedMalformed (the unknown parameter is caught by SchemaCheck before the
denylist gate is reached), not DeniedDenylisted. -/
theorem denylisted_malformed_counterexample :
    ("emr", "sock") ∈ staticDenylist ∧
    (validate emrSockCorpus staticDenylist .normal "emr sock --bogus x").kind
      = .DeniedMalformed ∧
    (validate emrSockCorpus staticDenylist .normal "emr sock --bogus x").kind
      ≠ .DeniedDenylisted := by
  decide

/-- C1 (amended): every candidate whose (service, operation) pair is in the
denylist and which passes Parse and SchemaCheck is rejected with
DeniedDenylisted, for every value of AccessMode; in particular `emr sock`
with valid parameters is rejected even under normal AccessMode. -/
theorem validate_denylisted_of_wellformed (corpus : CorpusIndex)
    (dl : List (String × String)) (mode : AccessMode) (s : String)
    (p : ParsedCommand) (sp : CommandSpec)
    (hp : parse s = some p)
    (hl : lookupSpec corpus p.service p.operation = some sp)
    (hpar : paramsOk sp p = true)
    (hdl : (p.service, p.operation) ∈ dl) :
    (validate corpus dl mode s).kind = .DeniedDenylisted := by
  simp only [validate, hp, hl]
  rw [if_neg (by simp [hpar]), if_pos hdl]
  rfl

/-- Witness for the amended C1: the concrete candidate `emr sock` against a
corpus containing it, under normal AccessMode. -/
theorem validate_denylisted_of_wellformed_witness :
    (parse "emr sock" = some ⟨"emr", "sock", []⟩ ∧
     lookupSpec emrSockCorpus "emr" "sock" = some ⟨"emr", "sock", [], true⟩ ∧
     paramsOk ⟨"emr", "sock", [], true⟩ ⟨"emr", "sock", []⟩ = true ∧
     ("emr", "sock") ∈ staticDenylist) ∧
    (validate emrSockCorpus staticDenylist .normal "emr sock").kind
      = .DeniedDenylisted :=
  ⟨by decide,
   validate_denylisted_of_wellformed emrSockCorpus staticDenylist .normal
     "emr sock" ⟨"emr", "sock", []⟩ ⟨"emr", "sock", [], true⟩
     (by decide) (by decide) (by decide) (by decide)⟩

/-- C2: every candidate string that matches no corpus CommandSpec (parse
failure, unknown service/operation pair, or unknown parameter) is rejected
with DeniedMalformed, for every denylist and access mode. -/
theorem validate_malformed_of_no_match (corpus : CorpusIndex)
    (dl : List (String × String)) (mode : AccessMode) (s : String)
    (h : matchesCorpus corpus s = false) :
    (validate corpus dl mode s).kind = .DeniedMalformed := by
  unfold validate
  unfold matchesCorpus at h
  repeat' split
  all_goals simp_all [ValidationVerdict.kind]

/-- Witness for C2: the unknown command `foo bar` is rejected as malformed. -/
theorem validate_malformed_of_no_match_witness :
    matchesCorpus ec2ReadCorpus "foo bar" = false ∧
    (validate ec2ReadCorpus staticDenylist .normal "foo bar").kind
      = .DeniedMalformed :=
  ⟨by decide,
   validate_malformed_of_no_match ec2ReadCorpus staticDenylist .normal
     "foo bar" (by decide)⟩

/-- C3 counterexample: `deploy install` is write-classified, but under
read-only AccessMode validation returns DeniedDenylisted (the denylist gate
takes priority), not DeniedReadOnly. -/
theorem readonly_denylisted_counterexample :
    (⟨"deploy", "install", [], true⟩ : CommandSpec).isWrite = true ∧
    (validate deployCorpus staticDenylist .readOnly "deploy install").kind
      = .DeniedDenylisted ∧
    (validate deployCorpus staticDenylist .readOnly "deploy install").kind
      ≠ .DeniedReadOnly := by
  decide

/-- C3 (amended): every write-classified operation that passes Parse,
SchemaCheck and the denylist gate is rejected with DeniedReadOnly when
AccessMode is read-only; and under normal AccessMode the read-only gate
never rejects any command. -/
theorem validate_write_readonly (corpus : CorpusIndex)
    (dl : List (String × String)) (s : String)
    (p : ParsedCommand) (sp : CommandSpec)
    (hp : parse s = some p)
    (hl : lookupSpec corpus p.service p.operation = some sp)
    (hpar : paramsOk sp p = true)
    (hdl : (p.service, p.operation) ∉ dl)
    (hw : sp.isWrite = true) :
    (validate corpus dl .readOnly s).kind = .DeniedReadOnly ∧
    (validate corpus dl .normal s).kind ≠ .DeniedReadOnly := by
  constructor
  · simp only [validate, hp, hl]
    rw [if_neg (by simp [hpar]), if_neg hdl, if_pos (by simp [hw])]
    rfl
  · exact validate_normal_no_readonly corpus dl s

/-- Witness for the amended C3: `ec2 terminate-instances --instance-ids i-1`
is denied in read-only mode and not blocked by the read-only gate in normal
mode. -/
theorem validate_write_readonly_witness :
    (parse "ec2 terminate-instances --instance-ids i-1"
       = some ⟨"ec2", "terminate-instances", ["instance-ids"]⟩ ∧
     ("ec2", "terminate-instances") ∉ staticDenylist) ∧
    (validate ec2WriteCorpus staticDenylist .readOnly
       "ec2 terminate-instances --instance-ids i-1").kind = .DeniedReadOnly ∧
    (validate ec2WriteCorpus staticDenylist .normal
       "ec2 terminate-instances --instance-ids i-1").kind ≠ .DeniedReadOnly :=
  ⟨⟨by decide, by decide⟩,
   validate_write_readonly ec2WriteCorpus staticDenylist
     "ec2 terminate-instances --instance-ids i-1"
     ⟨"ec2", "terminate-instances", ["instance-ids"]⟩
     ⟨"ec2", "terminate-instances", [⟨"instance-ids", true⟩], true⟩
     (by decide) (by decide) (by decide) (by decide) (by decide)⟩

/-- C4: an Allowed verdict is emitted only when Parse succeeds, SchemaCheck
succeeds (known service/operation and all parameters known), and both
PolicyCheck gates pass (not denylisted, and the read-only gate holds). -/
theorem allowed_only_if_all_gates (corpus : CorpusIndex)
    (dl : List (String × String)) (mode : AccessMode) (s : String)
    (h : (validate corpus dl mode s).kind = .Allowed) :
    ∃ p sp, parse s = some p ∧
      lookupSpec corpus p.service p.operation = some sp ∧
      paramsOk sp p = true ∧
      (p.service, p.operation) ∉ dl ∧
      (mode = .readOnly → sp.isWrite = false) := by
  unfold validate at h
  split at h
  · simp [ValidationVerdict.kind] at h
  · rename_i p hp
    split at h
    · simp [ValidationVerdict.kind] at h
    · rename_i sp hl
      split at h
      · simp [ValidationVerdict.kind] at h
      · rename_i hpar
        split at h
        · simp [ValidationVerdict.kind] at h
        · rename_i hdl
          split at h
          · simp [ValidationVerdict.kind] at h
          · rename_i hro
            refine ⟨p, sp, hp, hl, by simpa using hpar, hdl, fun hm => ?_⟩
            by_contra hw
            exact hro ⟨hm, by simpa using hw⟩

/-- Witness for C4: `ec2 describe-instances` is Allowed under normal mode,
so all stages pass on it. -/
theorem allowed_only_if_all_gates_witness :
    (validate ec2ReadCorpus staticDenylist .normal "ec2 describe-instances").kind
      = .Allowed ∧
    ∃ p sp, parse "ec2 describe-instances" = some p ∧
      lookupSpec ec2ReadCorpus p.service p.operation = some sp ∧
      paramsOk sp p = true ∧
      (p.service, p.operation) ∉ staticDenylist ∧
      (AccessMode.normal = .readOnly → sp.isWrite = false) :=
  ⟨by decide,
   allowed_only_if_all_gates ec2ReadCorpus staticDenylist .normal
     "ec2 describe-instances" (by decide)⟩

/-- C5 counterexample: two validation calls with the same triple
(command, AccessMode, denylist) but different corpus indexes produce
different verdicts, so the verdict is not a function of the triple alone. -/
theorem verdict_not_function_of_triple :
    validate ec2ReadCorpus [] .normal "ec2 describe-instances"
      ≠ validate [] [] .normal "ec2 describe-instances" := by
  decide

/-- C5 (amended): the verdict is a pure function of the quadruple
(command, AccessMode, denylist, corpus index): two calls agreeing on all
four inputs produce the same verdict, and validation, being a pure
function, has no side effects on any state. -/
theorem validate_pure (c₁ c₂ : CorpusIndex)
    (dl₁ dl₂ : List (String × String)) (m₁ m₂ : AccessMode) (s₁ s₂ : String)
    (hc : c₁ = c₂) (hdl : dl₁ = dl₂) (hm : m₁ = m₂) (hs : s₁ = s₂) :
    validate c₁ dl₁ m₁ s₁ = validate c₂ dl₂ m₂ s₂ := by
  rw [hc, hdl, hm, hs]

/-- Witness for the amended C5 at a concrete quadruple. -/
theorem validate_pure_witness :
    ((ec2ReadCorpus : CorpusIndex) = ec2ReadCorpus ∧
     (staticDenylist = staticDenylist) ∧
     (AccessMode.normal = .normal) ∧
     ("ec2 describe-instances" = "ec2 describe-instances")) ∧
    validate ec2ReadCorpus staticDenylist .normal "ec2 describe-instances"
      = validate ec2ReadCorpus staticDenylist .normal "ec2 describe-instances" :=
  ⟨⟨rfl, rfl, rfl, rfl⟩,
   validate_pure ec2ReadCorpus ec2ReadCorpus staticDenylist staticDenylist
     .normal .normal "ec2 describe-instances" "ec2 describe-instances"
     rfl rfl rfl rfl⟩

/-- Modelled from the spec: squared L2 distance between two embedding
vectors; the similarity metric is its negation, so larger similarity means
closer vectors (exact brute-force search, per the design rationale). -/
def sqDist (a b : List Int) : Int :=
  (List.zipWith (fun x y => (x - y) * (x - y)) a b).sum

/-- Modelled from the spec: similarity of a query vector and a corpus
vector — negated squared L2 distance. -/
def similarity (q v : EmbeddingVector) : Int :=
  - sqDist q v

/-- A corpus entry scored against a query: its insertion index in the
corpus, its CommandSpec, and its similarity score. -/
structure RankedEntry where
  idx : Nat
  spec : CommandSpec
  score : Int
deriving DecidableEq

/-- Modelled from the spec: a Candidate is a (CommandSpec, similarity
score) pair returned by a ranking query. -/
structure Candidate where
  spec : CommandSpec
  score : Int
deriving DecidableEq

/-- Forget the insertion index of a scored entry. -/
def RankedEntry.toCandidate (e : RankedEntry) : Candidate :=
  ⟨e.spec, e.score⟩

/-- Score every corpus entry against the query, recording insertion order
starting at index `n`. -/
def scoreEntries (q : EmbeddingVector) : Nat → CorpusIndex → List RankedEntry
  | _, [] => []
  | n, e :: rest => ⟨n, e.1, similarity q e.2⟩ :: scoreEntries q (n + 1) rest

/-- The ranking order: strictly greater similarity first, ties broken by
corpus insertion index. -/
def rOrd (a b : RankedEntry) : Prop :=
  b.score < a.score ∨ (a.score = b.score ∧ a.idx ≤ b.idx)

instance : DecidableRel rOrd := fun a b => by
  unfold rOrd
  infer_instance

instance : IsTotal RankedEntry rOrd :=
  ⟨fun a b => by unfold rOrd; omega⟩

instance : IsTrans RankedEntry rOrd :=
  ⟨fun a b c hab hbc => by unfold rOrd at hab hbc ⊢; omega⟩

/-- All scored corpus entries, sorted by descending similarity with ties in
insertion order. -/
def rankEntries (q : EmbeddingVector) (c : CorpusIndex) : List RankedEntry :=
  List.insertionSort rOrd (scoreEntries q 0 c)

/-- Modelled from the spec: the ranker's failure mode. -/
inductive RankError where
  | emptyCorpus
deriving DecidableEq

/-- Modelled from the spec: `rank(queryVector, k)` returns the top-k
corpus entries by descending similarity; it fails with the empty-corpus
error when the index has zero entries, and clamps k to the corpus size. -/
def rank (q : EmbeddingVector) (k : Nat) (c : CorpusIndex) :
    Except RankError (List Candidate) :=
  if c = [] then .error .emptyCorpus
  else .ok (((rankEntries q c).take k).map RankedEntry.toCandidate)

/-- Every entry scored starting from index `n` has index at least `n`. -/
theorem scoreEntries_le_idx (q : EmbeddingVector) :
    ∀ (n : Nat) (c : CorpusIndex) (e : RankedEntry),
      e ∈ scoreEntries q n c → n ≤ e.idx
  | n, [], e, h => by simp [scoreEntries] at h
  | n, x :: rest, e, h => by
      simp only [scoreEntries, List.mem_cons] at h
      rcases h with rfl | h
      · exact Nat.le_refl n
      · exact Nat.le_of_succ_le (scoreEntries_le_idx q (n + 1) rest e h)

/-- Scored entries carry strictly increasing insertion indices. -/
theorem scoreEntries_idx_lt (q : EmbeddingVector) :
    ∀ (n : Nat) (c : CorpusIndex),
      List.Pairwise (fun a b => a.idx < b.idx) (scoreEntries q n c)
  | _, [] => List.Pairwise.nil
  | n, x :: rest => by
      simp only [scoreEntries]
      refine List.Pairwise.cons (fun e he => ?_) (scoreEntries_idx_lt q (n + 1) rest)
      exact Nat.lt_of_succ_le (scoreEntries_le_idx q (n + 1) rest e he)

/-- Scoring preserves the number of corpus entries. -/
theorem length_scoreEntries (q : EmbeddingVector) :
    ∀ (n : Nat) (c : CorpusIndex), (scoreEntries q n c).length = c.length
  | _, [] => rfl
  | n, x :: rest => by
      simp [scoreEntries, length_scoreEntries q (n + 1) rest]

/-- Sorting preserves the number of entries. -/
theorem length_rankEntries (q : EmbeddingVector) (c : CorpusIndex) :
    (rankEntries q c).length = c.length :=
  ((List.perm_insertionSort rOrd (scoreEntries q 0 c)).length_eq).trans
    (length_scoreEntries q 0 c)

/-- Insertion indices stay pairwise distinct after sorting. -/
theorem rankEntries_idx_ne (q : EmbeddingVector) (c : CorpusIndex) :
    List.Pairwise (fun a b => a.idx ≠ b.idx) (rankEntries q c) := by
  have hp := List.perm_insertionSort rOrd (scoreEntries q 0 c)
  have h1 : List.Pairwise (fun a b => a.idx ≠ b.idx) (scoreEntries q 0 c) :=
    (scoreEntries_idx_lt q 0 c).imp (fun h => Nat.ne_of_lt h)
  exact (hp.pairwise_iff (fun h => Ne.symm h)).mpr h1

/-- The strict ranking order on output positions: strictly higher score, or
equal score and strictly earlier corpus insertion index. -/
def rankLt (a b : RankedEntry) : Prop :=
  b.score < a.score ∨ (a.score = b.score ∧ a.idx < b.idx)

/-- The sorted entry list is strictly descending in (score, insertion
index): descending similarity with ties broken stably by insertion order. -/
theorem rankEntries_strict (q : EmbeddingVector) (c : CorpusIndex) :
    List.Pairwise rankLt (rankEntries q c) := by
  have h1 : List.Pairwise rOrd (rankEntries q c) :=
    List.sorted_insertionSort rOrd (scoreEntries q 0 c)
  have h2 := rankEntries_idx_ne q c
  exact (h1.and h2).imp (fun h => by
    unfold rOrd at h
    unfold rankLt
    omega)

/-- C6: against a non-empty corpus with k ≥ 1, rank returns an ordered list
of Candidates of length at most k, pairwise descending in similarity, with
ties broken stably by corpus insertion order (strictly increasing insertion
index among equal scores). -/
theorem rank_ordered_stable (q : EmbeddingVector) (k : Nat) (c : CorpusIndex)
    (hc : c ≠ []) (hk : 1 ≤ k) :
    ∃ l : List RankedEntry,
      rank q k c = .ok (l.map RankedEntry.toCandidate) ∧
      l.length ≤ k ∧
      List.Pairwise rankLt l ∧
      List.Pairwise (fun a b : Candidate => b.score ≤ a.score)
        (l.map RankedEntry.toCandidate) := by
  refine ⟨(rankEntries q c).take k, ?_, ?_, ?_, ?_⟩
  · unfold rank
    rw [if_neg hc]
  · exact List.length_take_le k _
  · exact List.Pairwise.sublist (List.take_sublist k _) (rankEntries_strict q c)
  · rw [List.pairwise_map]
    refine (List.Pairwise.sublist (List.take_sublist k _)
      (rankEntries_strict q c)).imp ?_
    intro a b h
    unfold rankLt at h
    simp only [RankedEntry.toCandidate]
    omega

/-- A three-entry corpus used to exercise the ranker. -/
def corpus3 : CorpusIndex :=
  [(⟨"ec2", "describe-instances", [], false⟩, [1, 0, 0, 0]),
   (⟨"s3", "ls", [], false⟩, [0, 1, 0, 0]),
   (⟨"ec2", "terminate-instances", [⟨"instance-ids", true⟩], true⟩, [3, 3, 3, 3])]

/-- A concrete query vector. -/
def qv : EmbeddingVector := [0, 0, 0, 0]

/-- Witness for C6: ranking the three-entry corpus with k = 2. -/
theorem rank_ordered_stable_witness :
    ((corpus3 : CorpusIndex) ≠ [] ∧ 1 ≤ 2) ∧
    ∃ l : List RankedEntry,
      rank qv 2 corpus3 = .ok (l.map RankedEntry.toCandidate) ∧
      l.length ≤ 2 ∧
      List.Pairwise rankLt l ∧
      List.Pairwise (fun a b : Candidate => b.score ≤ a.score)
        (l.map RankedEntry.toCandidate) :=
  ⟨⟨by decide, by decide⟩,
   rank_ordered_stable qv 2 corpus3 (by decide) (by decide)⟩

/-- C7: rank fails with the empty-corpus error exactly when the corpus has
zero entries; for a non-empty corpus of n entries and k ≥ n it returns
exactly n candidates and no error. -/
theorem rank_empty_iff_and_clamp (q : EmbeddingVector) (k : Nat)
    (c : CorpusIndex) :
    (rank q k c = .error .emptyCorpus ↔ c = []) ∧
    (c ≠ [] → c.length ≤ k →
      ∃ l, rank q k c = .ok l ∧ l.length = c.length) := by
  constructor
  · constructor
    · intro h
      by_contra hc
      unfold rank at h
      rw [if_neg hc] at h
      cases h
    · intro h
      subst h
      rfl
  · intro hc hlen
    refine ⟨((rankEntries q c).take k).map RankedEntry.toCandidate, ?_, ?_⟩
    · unfold rank
      rw [if_neg hc]
    · rw [List.length_map,
        List.take_of_length_le (by rw [length_rankEntries]; exact hlen),
        length_rankEntries]

/-- Witness for C7: k = 5 against the three-entry corpus returns exactly
three candidates. -/
theorem rank_empty_iff_and_clamp_witness :
    ((corpus3 : CorpusIndex) ≠ [] ∧ corpus3.length ≤ 5) ∧
    ∃ l, rank qv 5 corpus3 = .ok l ∧ l.length = corpus3.length :=
  ⟨⟨by decide, by decide⟩,
   (rank_empty_iff_and_clamp qv 5 corpus3).2 (by decide) (by decide)⟩

/-- Modelled from the spec: the embedder's failure mode (empty input or
model-load failure). -/
inductive EmbedError where
  | emptyInput
deriving DecidableEq

/-- Modelled from the spec: the Query Embedder maps free text to a
fixed-length vector; it fails on empty input and is a deterministic
function of the text alone. -/
def embed (text : String) : Except EmbedError EmbeddingVector :=
  if text = "" then .error .emptyInput
  else .ok [(text.length : Int),
            (text.toList.map (fun ch => (ch.toNat : Int))).sum,
            (text.toList.map (fun ch => ((ch.toNat * ch.toNat : Nat) : Int))).sum,
            ((text.toList.headD 'a').toNat : Int)]

/-- Modelled from the spec: the external state an embedder call could in
principle observe or mutate. -/
def EmbedState : Type := Nat

/-- Modelled from the spec: one embedder call in the context of external
state — it consults only the text and leaves the state untouched (no
randomness, no external state mutation). -/
def embedCall (s : EmbedState) (text : String) :
    Except EmbedError EmbeddingVector × EmbedState :=
  (embed text, s)

/-- C8: embedding is deterministic — two embedder calls on the same text,
from any two external states, return bit-identical results, and a call
never mutates the external state. -/
theorem embed_deterministic (text : String) (s₁ s₂ : EmbedState) :
    (embedCall s₁ text).1 = (embedCall s₂ text).1 ∧
    (embedCall s₁ text).2 = s₁ ∧
    (embedCall s₂ text).2 = s₂ :=
  ⟨rfl, rfl, rfl⟩

/-- Path join with a forward slash, as node's path.join produces for the
segments used by the plugin. -/
def pjoin (a b : String) : String :=
  a ++ "/" ++ b

/-- The discovery file under the site directory:
siteDir/static/.well-known/mcp-registry-path. -/
def sourceFile (siteDir : String) : String :=
  pjoin (pjoin (pjoin siteDir "static") ".well-known") "mcp-registry-path"

/-- The copy target under the build output directory:
outDir/.well-known/mcp-registry-path. -/
def destFile (outDir : String) : String :=
  pjoin outDir ".well-known"  |> (pjoin · "mcp-registry-path")

/-- The directory of the copy target: outDir/.well-known. -/
def destDir (outDir : String) : String :=
  pjoin outDir ".well-known"

/-- A model filesystem: file contents keyed by path (first entry wins),
plus the set of created directories. -/
structure FileSystem where
  files : List (String × String)
  dirs : List String
deriving DecidableEq

/-- Content of the file at a path, when present. -/
def FileSystem.readFile (fs : FileSystem) (p : String) : Option String :=
  (fs.files.find? (fun e => e.1 = p)).map (·.2)

/-- fs-extra pathExists: whether a file is present at the path. -/
def FileSystem.pathExists (fs : FileSystem) (p : String) : Bool :=
  (fs.files.find? (fun e => e.1 = p)).isSome

/-- fs-extra ensureDir: record the directory as created; files unchanged. -/
def FileSystem.ensureDir (fs : FileSystem) (d : String) : FileSystem :=
  ⟨fs.files, if d ∈ fs.dirs then fs.dirs else d :: fs.dirs⟩

/-- Write a file: the new entry shadows any previous one at the path. -/
def FileSystem.writeFile (fs : FileSystem) (p content : String) : FileSystem :=
  ⟨(p, content) :: fs.files, fs.dirs⟩

/-- fs-extra copy for a single file: write the source's content at the
destination; no source, no write. -/
def FileSystem.copyFile (fs : FileSystem) (src dst : String) : FileSystem :=
  match fs.readFile src with
  | some content => fs.writeFile dst content
  | none => fs

/-- The postBuild step of the copy-well-known plugin
(docusaurus/plugins/copy-well-known/index.js): if the discovery file exists
under the site directory, ensure the destination directory and copy the
file into the build output; otherwise do nothing. -/
def postBuild (siteDir outDir : String) (fs : FileSystem) : FileSystem :=
  if fs.pathExists (sourceFile siteDir) then
    (fs.ensureDir (destDir outDir)).copyFile (sourceFile siteDir) (destFile outDir)
  else fs

/-- A readable file makes pathExists true. -/
theorem FileSystem.pathExists_of_readFile {fs : FileSystem} {p c : String}
    (h : fs.readFile p = some c) : fs.pathExists p = true := by
  unfold FileSystem.readFile at h
  unfold FileSystem.pathExists
  rcases hf : fs.files.find? (fun e => e.1 = p) with _ | e
  · rw [hf] at h
    simp at h
  · simp [hf]

/-- C9: whenever the discovery file exists under the site directory with
some content, after postBuild the file exists at
outDir/.well-known/mcp-registry-path with that same content. -/
theorem postBuild_copies (siteDir outDir : String) (fs : FileSystem)
    (content : String)
    (h : fs.readFile (sourceFile siteDir) = some content) :
    (postBuild siteDir outDir fs).readFile (destFile outDir) = some content := by
  unfold postBuild
  rw [if_pos (FileSystem.pathExists_of_readFile h)]
  unfold FileSystem.copyFile
  have hh : (fs.ensureDir (destDir outDir)).readFile (sourceFile siteDir)
      = some content := h
  rw [hh]
  unfold FileSystem.readFile FileSystem.writeFile FileSystem.ensureDir
  simp [List.find?]

/-- A filesystem holding only the discovery file of a site rooted at
`site`. -/
def fsWithWellKnown : FileSystem :=
  ⟨[("site/static/.well-known/mcp-registry-path", "/mcp/registry.json")], []⟩

/-- Witness for C9: the concrete site filesystem, built into `out`. -/
theorem postBuild_copies_witness :
    fsWithWellKnown.readFile (sourceFile "site") = some "/mcp/registry.json" ∧
    (postBuild "site" "out" fsWithWellKnown).readFile (destFile "out")
      = some "/mcp/registry.json" :=
  ⟨by decide,
   postBuild_copies "site" "out" fsWithWellKnown "/mcp/registry.json" (by decide)⟩

/-- C10: when the discovery file is absent, postBuild performs no
filesystem writes at all — no directory is created, no file is copied, and
the filesystem (output directory included) is returned unchanged. -/
theorem postBuild_frame (siteDir outDir : String) (fs : FileSystem)
    (h : fs.pathExists (sourceFile siteDir) = false) :
    postBuild siteDir outDir fs = fs := by
  unfold postBuild
  rw [if_neg (by simp [h])]

/-- Witness for C10: an empty filesystem is left exactly as it was. -/
theorem postBuild_frame_witness :
    (FileSystem.mk [] []).pathExists (sourceFile "site") = false ∧
    postBuild "site" "out" ⟨[], []⟩ = ⟨[], []⟩ :=
  ⟨by decide, postBuild_frame "site" "out" ⟨[], []⟩ (by decide)⟩
